import Mathlib

/-!
# The `macho` command of ipsw: a shallow embedding of `machoCmd.RunE`

Source: `cmd/ipsw/cmd/macho.go`.  The command opens a Mach-O file through the
`go-macho` library and prints reports on it.  The embedding covers the report
phase of `RunE` (source lines 103-296), which runs once the file `m` has been
opened and, for a fat file, an architecture has been chosen.

Modelling conventions

* Values produced by the library (`m.FileHeader.String()`, `proto.String()`,
  the requirement records, the parsed certificates, ...) are fields of the
  input records: the command only reads them.
* Every print statement of the source appends one `Out` event that records the
  arguments handed to the formatting call; fixed text is recorded through
  `Out.line` (a `fmt.Println` of a literal) and `Out.text` (a `fmt.Printf` of a
  literal).
* Machine integers are natural numbers; the only arithmetic on them in this
  file is the 8-bit subtraction `sym.Sect-1`, written with an explicit
  `% 256`, and the conversion `int(math.Pow(2, ...))`.
* A run ends in one of four ways: `return nil`, `return err`, a run-time
  panic (an index out of range, a nil pointer dereference), or an exit of the
  process from inside a library call (`log.Fatal`).
-/

set_option autoImplicit false

namespace Macho

/-! ## Data read from the library -/

/-- One entry of `m.Sections`: the segment name and the section name. -/
structure Section where
  Seg : String
  Name : String
deriving DecidableEq, Repr

/-- One entry of `m.Symtab.Syms`.  `Typ` is the source's `Type` (an 8-bit
`NLType`), `Sect` is the 8-bit, 1-based section number, `Value` is 64-bit. -/
structure Symbol where
  Name : String
  Typ : Nat
  Sect : Nat
  Value : Nat
deriving DecidableEq, Repr

/-- The symbol table that `m.Symtab` points to, when the file has one. -/
structure Symtab where
  Syms : List Symbol
deriving DecidableEq, Repr

/-- The fields of `cd.Header` that the Code Directory report prints. -/
structure CodeDirectoryHeader where
  Length : Nat
  Version : Nat
  Flags : Nat
  HashOffset : Nat
  IdentOffset : Nat
  NSpecialSlots : Nat
  NCodeSlots : Nat
  CodeLimit : Nat
  HashSize : Nat
  HashType : Nat
  PageSize : Nat
deriving DecidableEq, Repr

/-- A hash slot; only its description is printed. -/
structure Slot where
  Desc : String
deriving DecidableEq, Repr

/-- One entry of `m.CodeSignature().CodeDirectories`. -/
structure CodeDirectory where
  Header : CodeDirectoryHeader
  ID : String
  TeamID : String
  CDHash : String
  SpecialSlots : List Slot
  CodeSlots : List Slot
deriving DecidableEq, Repr

/-- One entry of `m.CodeSignature().Requirements`. -/
structure Requirement where
  Typ : Nat
  Offset : Nat
  Length : Nat
  Detail : String
deriving DecidableEq, Repr

/-- A `pkix.Name` as far as the command reads it.  A Go slice that is `nil` is
`none`; a slice that is not `nil` is `some` of its elements. -/
structure PkixName where
  Organization : Option (List String)
  OrganizationalUnit : Option (List String)
  CommonName : String
deriving DecidableEq, Repr

/-- An X.509 certificate as far as the command reads it; the two instants are
kept as numbers and are rendered by `Format("2006-01-02")`. -/
structure Certificate where
  Issuer : PkixName
  Subject : PkixName
  NotBefore : Nat
  NotAfter : Nat
deriving DecidableEq, Repr

/-- The value of `m.CodeSignature()` when it is not `nil`. -/
structure CodeSignature where
  CodeDirectories : List CodeDirectory
  Requirements : List Requirement
  CMSSignature : List Nat
  Entitlements : String
deriving DecidableEq, Repr

/-- What a call of one of the library's ObjC getters does: it returns a value
with a `nil` error, returns an error, or ends the process through `log.Fatal`
before it returns. -/
inductive Getter (α : Type) where
  | ok (v : α)
  | error (err : String)
  | fatal (msg : String)

/-- The loaded file `m`.  `Symtab` is a pointer: it is `nil` (`none`) for a file
without a symbol table load command.  The ObjC getters are given by what a call
of them does; the two Go maps (`GetObjCSelectorReferences`,
`GetObjCMethodNames`) are given by their entries in the order the library
inserted them, which is the file order of the section they were read from. -/
structure File where
  FileHeader : String
  FileTOC : String
  CodeSignature : Option CodeSignature
  HasObjC : Bool
  GetObjCProtocols : Getter (List String)
  GetObjCClasses : Getter (List String)
  GetObjCPlusLoadClasses : Getter (List String)
  GetObjCCategories : Getter String
  GetObjCSelectorReferences : Getter (List (Nat × String))
  GetObjCMethodNames : Getter (List (String × Nat))
  Sections : List Section
  Symtab : Option Symtab

/-- The six boolean flags of the command, named as the source's locals. -/
structure Flags where
  showHeader : Bool
  showLoadCommands : Bool
  showSignature : Bool
  showEntitlements : Bool
  showObjC : Bool
  symbols : Bool
deriving DecidableEq, Repr

/-- What the run depends on besides its arguments: the package-level `Verbose`
toggle, the external `pkcs7.Parse`, the platform's `int` (its width, and the
implementation-dependent value a float-to-int conversion yields when the float
is out of range), and the order in which the Go runtime visits the entries of
a map in a `range` loop. -/
structure Env where
  Verbose : Bool
  pkcs7Parse : List Nat → Except String (List Certificate)
  intBits : Nat
  intOutOfRange : Nat → Int
  rangeSelRefs : List (Nat × String) → List (Nat × String)
  rangeMethods : List (String × Nat) → List (String × Nat)

/-- The Go runtime visits every entry of a map exactly once, in an order of
its own choosing: the visiting order is a permutation of the entries. -/
def Env.RangeVisitsAll (env : Env) : Prop :=
  (∀ m, (env.rangeSelRefs m).Perm m) ∧ (∀ m, (env.rangeMethods m).Perm m)

/-! ## Output events -/

/-- One print statement of the source, with the arguments it was given. -/
inductive Out where
  /-- A `fmt.Println` of a string literal. -/
  | line (s : String)
  /-- A `fmt.Printf` of a string literal. -/
  | text (s : String)
  /-- The call `fmt.Println()`. -/
  | blank
  /-- The call `fmt.Println(m.FileHeader.String())`. -/
  | header (s : String)
  /-- The call `fmt.Println(m.FileTOC.String())`. -/
  | toc (s : String)
  /-- The format `"Code Directory (%d bytes)\n"`. -/
  | cdLength (length : Nat)
  /-- The second `Printf` of the Code Directory report, arguments in order. -/
  | cdInfo (version flags codeLimit : Nat) (id : String) (identOffset : Nat)
      (teamID cdHash : String) (nCodeSlots : Nat) (pages : Int)
      (nSpecialSlots hashOffset hashSize hashType : Nat)
  /-- The format `"\t\t%s\n"` of a slot description. -/
  | slot (desc : String)
  /-- The format `"Requirement Set (%d bytes) with %d requirement\n"`. -/
  | reqSet (length count : Nat)
  /-- The format `"\t%d: %s (@%d, %d bytes): %s\n"`. -/
  | req (idx typ offset length : Nat) (detail : String)
  /-- The format `"        OU: %s\tCN: %s\t(%s thru %s)\n"`. -/
  | cert (ou cn : String) (notBefore notAfter : Nat)
  /-- The call `fmt.Println(m.CodeSignature().Entitlements)`. -/
  | entitlements (s : String)
  /-- The call `fmt.Println(proto.String())`. -/
  | proto (s : String)
  /-- The call `fmt.Println(class.String())`. -/
  | cls (s : String)
  /-- The format `"Categories: %#v\n"`. -/
  | categories (s : String)
  /-- The format `"0x%011x: %s\n"` of a selector reference. -/
  | selector (vmaddr : Nat) (name : String)
  /-- The format `"0x%011x: %s\n"` of a method name. -/
  | method (vmaddr : Nat) (name : String)
  /-- The format `"0x%016X \t <%s> \t %s\n"` with arguments `sym.Value`,
  `sym.Type.String(sec)` and `sym.Name`; the call `sym.Type.String(sec)` is
  recorded by its receiver `typ` and its argument `sec`. -/
  | symbol (value typ : Nat) (sec : String) (name : String)
deriving DecidableEq, Repr

/-- How a run ends: `return nil`, `return err`, a run-time panic, or an exit of
the process through `log.Fatal` inside a library call. -/
inductive Outcome where
  | ok
  | error (e : String)
  | fault
  | fatal (msg : String)
deriving DecidableEq, Repr

/-- What a run (or a part of one) printed and how it ended. -/
structure Run where
  out : List Out
  outcome : Outcome
deriving DecidableEq, Repr

/-- Sequencing of two parts of the run: the second part runs only if the first
one fell through to it. -/
def Run.andThen (r k : Run) : Run :=
  match r.outcome with
  | .ok => ⟨r.out ++ k.out, k.outcome⟩
  | _ => r

/-- A part of the run that only prints. -/
def Run.prints (out : List Out) : Run := ⟨out, .ok⟩

/-! ## The symbols report (source lines 282-295) -/

/-- The 8-bit subtraction `sym.Sect-1`. -/
def sectMinusOne (sect : Nat) : Nat := (sect + 255) % 256

/-- The body of `for _, sym := range m.Symtab.Syms`, with the local `sec`
(declared before the loop) threaded through the iterations.  `none` is an
index-out-of-range panic at `m.Sections[sym.Sect-1]`. -/
def symbolsLoop (sections : List Section) : String → List Symbol → Option (List Out)
  | _, [] => some []
  | sec, sym :: rest =>
    if 0 < sym.Sect ∧ sym.Sect ≤ sections.length then
      match sections[sectMinusOne sym.Sect]? with
      | none => none
      | some s =>
        let sec1 := s.Seg ++ "." ++ s.Name
        (symbolsLoop sections sec1 rest).map
          (fun outs => Out.symbol sym.Value sym.Typ sec1 sym.Name :: outs)
    else
      (symbolsLoop sections sec rest).map
        (fun outs => Out.symbol sym.Value sym.Typ sec sym.Name :: outs)

/-- The `if symbols { ... }` block.  After the two headings the loop header
reads `m.Symtab.Syms` with no check of the pointer: a `nil` `m.Symtab` is a
nil pointer dereference panic.  The lines of the loop go through a tabwriter
that is flushed after the loop, so a panic inside the loop leaves only the two
headings printed. -/
def symbolsReport (flags : Flags) (m : File) : Run :=
  if flags.symbols then
    match m.Symtab with
    | none => ⟨[Out.line "SYMBOLS", Out.line "======="], .fault⟩
    | some symtab =>
      match symbolsLoop m.Sections "" symtab.Syms with
      | some outs => ⟨[Out.line "SYMBOLS", Out.line "======="] ++ outs, .ok⟩
      | none => ⟨[Out.line "SYMBOLS", Out.line "======="], .fault⟩
  else
    Run.prints []

/-! ## The code signature report (source lines 110-192) -/

/-- The value of `math.Pow(2, float64(p))` for an 8-bit `p`.  The conversion
`float64(p)` is exact, and the power is a power of two below `2^1024`, which a
64-bit float holds exactly; the float is represented by its integer value. -/
def powTwoFloat (p : Nat) : Nat := 2 ^ p

/-- Reduction of an integer into the range of a signed `bits`-bit integer. -/
def wrapInt (bits : Nat) (z : Int) : Int :=
  (z + 2 ^ (bits - 1)) % 2 ^ bits - 2 ^ (bits - 1)

/-- The Go conversion `int(f)` of a non-negative integral float `f`: the value
itself when `int` can represent it, and otherwise an implementation-dependent
value of type `int`. -/
def floatToInt (env : Env) (f : Nat) : Int :=
  if f < 2 ^ (env.intBits - 1) then (f : Int) else wrapInt env.intBits (env.intOutOfRange f)

/-- The argument `int(math.Pow(2, float64(cd.Header.PageSize)))`. -/
def pages (env : Env) (cd : CodeDirectory) : Int :=
  floatToInt env (powTwoFloat cd.Header.PageSize)

/-- The body of `for _, cd := range cds`. -/
def codeDirectoryReport (env : Env) (cd : CodeDirectory) : List Out :=
  [Out.cdLength cd.Header.Length,
   Out.cdInfo cd.Header.Version cd.Header.Flags cd.Header.CodeLimit cd.ID
     cd.Header.IdentOffset cd.TeamID cd.CDHash cd.Header.NCodeSlots (pages env cd)
     cd.Header.NSpecialSlots cd.Header.HashOffset cd.Header.HashSize cd.Header.HashType]
  ++ (if env.Verbose then
        cd.SpecialSlots.map (fun sslot => Out.slot sslot.Desc)
          ++ cd.CodeSlots.map (fun cslot => Out.slot cslot.Desc)
      else [])

/-- The block `if len(cds) > 0 { for _, cd := range cds { ... } }`. -/
def codeDirectoriesReport (env : Env) (cds : List CodeDirectory) : List Out :=
  if 0 < cds.length then (cds.map (codeDirectoryReport env)).flatten else []

/-- The body of `for idx, req := range reqs`, from index `idx` on. -/
def requirementsLoop : Nat → List Requirement → List Out
  | _, [] => []
  | idx, req :: rest =>
    Out.req idx req.Typ req.Offset req.Length req.Detail :: requirementsLoop (idx + 1) rest

/-- The block `if len(reqs) > 0 { ... }`: the heading prints `reqs[0].Length`
and `len(reqs)`, then one line per requirement prints `req.Length`. -/
def requirementsReport (reqs : List Requirement) : List Out :=
  match reqs with
  | [] => []
  | req0 :: _ => Out.reqSet req0.Length reqs.length :: requirementsLoop 0 reqs

/-- The local `ou` of the certificate loop: declared empty, assigned
`Organization[0]` when `Organization != nil`, then assigned
`OrganizationalUnit[0]` when `OrganizationalUnit != nil`.  `none` is an
index-out-of-range panic (a slice that is not `nil` and has no element). -/
def issuerLabel (issuer : PkixName) : Option String :=
  let ou0 : String := ""
  let afterOrganization : Option String :=
    match issuer.Organization with
    | none => some ou0
    | some organization => organization[0]?
  match afterOrganization with
  | none => none
  | some ou1 =>
    match issuer.OrganizationalUnit with
    | none => some ou1
    | some organizationalUnit => organizationalUnit[0]?

/-- The body of `for _, cert := range p7.Certificates`. -/
def certificatesLoop : List Certificate → Option (List Out)
  | [] => some []
  | cert :: rest =>
    match issuerLabel cert.Issuer with
    | none => none
    | some ou =>
      (certificatesLoop rest).map
        (fun outs => Out.cert ou cert.Subject.CommonName cert.NotBefore cert.NotAfter :: outs)

/-- The block `if len(m.CodeSignature().CMSSignature) > 0 { ... }`.  A parse
error is returned from `RunE`; the certificate lines go through a tabwriter
flushed after the loop. -/
def cmsReport (env : Env) (cms : List Nat) : Run :=
  if 0 < cms.length then
    match env.pkcs7Parse cms with
    | .error err => ⟨[Out.line "CMS (RFC3852) signature:"], .error err⟩
    | .ok certificates =>
      match certificatesLoop certificates with
      | some outs => ⟨Out.line "CMS (RFC3852) signature:" :: outs, .ok⟩
      | none => ⟨[Out.line "CMS (RFC3852) signature:"], .fault⟩
  else
    Run.prints []

/-- The local `onlySig`. -/
def onlySig (flags : Flags) : Bool :=
  !flags.showHeader && !flags.showLoadCommands && flags.showSignature
    && !flags.showEntitlements && !flags.showObjC

/-- The local `onlyEnt`. -/
def onlyEnt (flags : Flags) : Bool :=
  !flags.showHeader && !flags.showLoadCommands && !flags.showSignature
    && flags.showEntitlements && !flags.showObjC

/-- The `if showSignature { ... }` block. -/
def signatureReport (env : Env) (flags : Flags) (m : File) : Run :=
  if flags.showSignature then
    (Run.prints (if !onlySig flags then
        [Out.line "Code Signature", Out.line "=============="] else [])).andThen
    ((match m.CodeSignature with
      | some cs =>
        (Run.prints (codeDirectoriesReport env cs.CodeDirectories
          ++ requirementsReport cs.Requirements)).andThen (cmsReport env cs.CMSSignature)
      | none => Run.prints [Out.line "  - no code signature data"]).andThen
    (Run.prints [Out.blank]))
  else
    Run.prints []

/-! ## The entitlements and ObjC reports (source lines 194-251) -/

/-- The `if showEntitlements { ... }` block. -/
def entitlementsReport (flags : Flags) (m : File) : Run :=
  if flags.showEntitlements then
    Run.prints
      ((if !onlyEnt flags then [Out.line "Entitlements", Out.line "============"] else [])
        ++ (match m.CodeSignature with
            | some cs =>
              if 0 < cs.Entitlements.length then [Out.entitlements cs.Entitlements]
              else [Out.line "  - no entitlements"]
            | none => [Out.line "  - no entitlements"]))
  else
    Run.prints []

/-- A block `if v, err := get(); err == nil { body v }`: the body runs on a
value, an error is dropped, and a getter that ends the process ends the run. -/
def whenNoError {α : Type} (r : Getter α) (body : α → List Out) : Run :=
  match r with
  | .ok v => Run.prints (body v)
  | .error _ => Run.prints []
  | .fatal msg => ⟨[], .fatal msg⟩

/-- The loop `for vmaddr, name := range selRefs` over the Go map `selRefs`:
one line per entry, in the order in which the runtime visits the map. -/
def selectorReferencesLoop (env : Env) (selRefs : List (Nat × String)) : List Out :=
  (env.rangeSelRefs selRefs).map (fun e => Out.selector e.1 e.2)

/-- The loop `for method, vmaddr := range methods` over the Go map `methods`. -/
def methodNamesLoop (env : Env) (methods : List (String × Nat)) : List Out :=
  (env.rangeMethods methods).map (fun e => Out.method e.2 e.1)

/-- The `if showObjC { ... }` block.  The two `range` loops over maps visit the
entries in the order the runtime chooses. -/
def objcReport (env : Env) (flags : Flags) (m : File) : Run :=
  if flags.showObjC then
    (Run.prints [Out.line "Objective-C", Out.line "==========="]).andThen
    ((if m.HasObjC then
        (whenNoError m.GetObjCProtocols (fun protos => protos.map Out.proto)).andThen
        ((whenNoError m.GetObjCClasses (fun classes => classes.map Out.cls)).andThen
        ((whenNoError m.GetObjCPlusLoadClasses
            (fun nlclasses => nlclasses.map Out.cls)).andThen
        ((whenNoError m.GetObjCCategories (fun cats => [Out.categories cats])).andThen
        ((whenNoError m.GetObjCSelectorReferences (fun selRefs =>
            Out.line "@selectors" :: selectorReferencesLoop env selRefs)).andThen
        (whenNoError m.GetObjCMethodNames (fun methods =>
            Out.text "\n@methods\n" :: methodNamesLoop env methods))))))
      else Run.prints [Out.line "  - no objc"]).andThen
    (Run.prints [Out.blank]))
  else
    Run.prints []

/-! ## The whole report phase -/

/-- The two blocks that print the header and the load commands (lines 103-108). -/
def headerReport (flags : Flags) (m : File) : Run :=
  Run.prints
    ((if flags.showHeader && !flags.showLoadCommands then [Out.header m.FileHeader] else [])
      ++ (if flags.showLoadCommands || (!flags.showHeader && !flags.showLoadCommands
              && !flags.showSignature && !flags.showEntitlements && !flags.showObjC)
          then [Out.toc m.FileTOC] else []))

/-- The report phase of `machoCmd.RunE` on the loaded file `m`: the blocks in
source order, ending in `return nil`. -/
def RunE (env : Env) (flags : Flags) (m : File) : Run :=
  (headerReport flags m).andThen
  ((signatureReport env flags m).andThen
  ((entitlementsReport flags m).andThen
  ((objcReport env flags m).andThen
  (symbolsReport flags m))))

/-! ## The text of a symbol line -/

/-- The rendering `sym.Type.String(sec)` of the go-macho library, which is not
part of this repository, reconstructed from the `n_type` bits of the Mach-O
symbol format: the mask `0xe0` marks a debugging entry, `0x10` a private
external symbol, `0x01` an external symbol, and the bits under the mask `0x0e`
say whether the symbol is undefined (`0x0`), absolute (`0x2`), defined in the
section numbered by `Sect` (`0xe`, the only case that prints `secName`),
prebound (`0xc`) or indirect (`0xa`).  The parts are joined by `|`. -/
def nlTypeString (t : Nat) (secName : String) : String :=
  String.intercalate "|"
    ((if t &&& 0xe0 ≠ 0 then ["debug"] else [])
      ++ (if t &&& 0x10 ≠ 0 then ["priv_ext"] else [])
      ++ (if t &&& 0x01 ≠ 0 then ["external"] else [])
      ++ (if t &&& 0x0e = 0x0 then ["undefined"] else [])
      ++ (if t &&& 0x0e = 0x2 then ["absolute"] else [])
      ++ (if t &&& 0x0e = 0xe then [secName] else [])
      ++ (if t &&& 0x0e = 0xc then ["prebound_undef"] else [])
      ++ (if t &&& 0x0e = 0xa then ["indirect"] else []))

/-- The three arguments of the `Fprintf` of each symbol line of a report:
`sym.Value`, the text `sym.Type.String(sec)` under the rendering `typeString`,
and `sym.Name`. -/
def printedSymbols (typeString : Nat → String → String) :
    List Out → List (Nat × String × String)
  | [] => []
  | Out.symbol value typ sec name :: rest =>
    (value, typeString typ sec, name) :: printedSymbols typeString rest
  | _ :: rest => printedSymbols typeString rest

/-! ## Closed forms used in the proofs -/

/-- The value of the local `sec` after the iteration on `sym`, when it was
`sec` before: a closed form used to describe the loop. -/
def labelAfter (sections : List Section) (sec : String) (sym : Symbol) : String :=
  if 0 < sym.Sect ∧ sym.Sect ≤ sections.length then
    match sections[sectMinusOne sym.Sect]? with
    | some s => s.Seg ++ "." ++ s.Name
    | none => sec
  else sec

/-- The successive values of the local `sec`, one per symbol. -/
def labelsFrom (sections : List Section) : String → List Symbol → List String
  | _, [] => []
  | sec, sym :: rest =>
    labelAfter sections sec sym :: labelsFrom sections (labelAfter sections sec sym) rest

/-- The line printed for a symbol, given the value of `sec` at that point. -/
def symbolLine (sym : Symbol) (label : String) : Out :=
  Out.symbol sym.Value sym.Typ label sym.Name

/-! ## Example inputs -/

/-- A section list with the single section `__TEXT.__text`. -/
def oneSection : List Section := [⟨"__TEXT", "__text"⟩]

/-- A two-symbol table over `oneSection`: `_main` lies in section 1 and
`_printf` is undefined (section number 0). -/
def twoSymbols : List Symbol :=
  [⟨"_main", 0x0f, 1, 0x100000f50⟩, ⟨"_printf", 0x01, 0, 0⟩]

/-- A section list with two sections. -/
def twoSections : List Section := [⟨"__TEXT", "__text"⟩, ⟨"__DATA", "__data"⟩]

/-- A table over `twoSections`: `_counter` lies in section 2, `_stray` carries
the section number 3 (one past the last section) and `_malloc` is undefined
(section number 0). -/
def threeSymbols : List Symbol :=
  [⟨"_counter", 0x0f, 2, 0x100001000⟩, ⟨"_stray", 0x0e, 3, 0x100002000⟩, ⟨"_malloc", 0x01, 0, 0⟩]

/-- A two-symbol table over `oneSection`, both symbols with the type byte
`0x0e` (defined in a section, not external): `_main` lies in section 1 and
`_helper` carries the section number 0. -/
def staleSymbols : List Symbol :=
  [⟨"_main", 0x0e, 1, 0x100000f50⟩, ⟨"_helper", 0x0e, 0, 0x100000f60⟩]

/-- A thin file with one section, the two symbols of `twoSymbols`, no code
signature and no ObjC data. -/
def minimalFile : File where
  FileHeader := "Magic = 64-bit MachO"
  FileTOC := "000: LC_SEGMENT_64 __TEXT"
  CodeSignature := none
  HasObjC := false
  GetObjCProtocols := .error "macho does not contain __objc_protolist section"
  GetObjCClasses := .error "macho does not contain __objc_classlist section"
  GetObjCPlusLoadClasses := .error "macho does not contain __objc_nlclslist section"
  GetObjCCategories := .error "macho does not contain __objc_catlist section"
  GetObjCSelectorReferences := .error "macho does not contain __objc_selrefs section"
  GetObjCMethodNames := .error "macho does not contain __objc_methname section"
  Sections := oneSection
  Symtab := some ⟨twoSymbols⟩

/-- The file `minimalFile` with the symbol table `staleSymbols`. -/
def staleLabelFile : File :=
  { minimalFile with Symtab := some ⟨staleSymbols⟩ }

/-- The file `minimalFile` without a symbol table load command: `m.Symtab` is
`nil`. -/
def strippedFile : File :=
  { minimalFile with Symtab := none }

/-- The flags of `ipsw macho --symbols <file>`. -/
def symbolsOnly : Flags := ⟨false, false, false, false, false, true⟩

/-- The issuer of an Apple leaf certificate: it has both an organization and
an organizational unit. -/
def appleIssuer : PkixName :=
  ⟨some ["Apple Inc."], some ["Apple Certification Authority"], "Apple Root CA"⟩

/-- A certificate issued by `appleIssuer`. -/
def appleCertificate : Certificate :=
  ⟨appleIssuer, ⟨some ["Apple Inc."], some ["Apple Software"], "Software Signing"⟩,
    1161820800, 2054670036⟩

/-- An example environment: a 64-bit platform on which an out-of-range
float-to-int conversion yields the smallest integer, a `pkcs7.Parse` that
rejects any input not starting with the DER sequence tag, and a runtime that
happens to visit maps in insertion order. -/
def amd64 : Env where
  Verbose := false
  pkcs7Parse := fun der =>
    match der with
    | 0x30 :: _ => .ok [appleCertificate]
    | _ => .error "asn1: structure error"
  intBits := 64
  intOutOfRange := fun _ => -9223372036854775808
  rangeSelRefs := fun m => m
  rangeMethods := fun m => m

/-- The same environment with a runtime that happens to visit the selector
map in the reverse of the insertion order. -/
def amd64Reversed : Env :=
  { amd64 with rangeSelRefs := fun m => m.reverse }

/-- The file `minimalFile` with a code signature whose CMS blob is two bytes
that are not DER. -/
def corruptSignatureFile : File :=
  { minimalFile with CodeSignature := some ⟨[], [], [0xde, 0xad], ""⟩ }

/-- The flags of `ipsw macho --sig --symbols <file>`. -/
def sigAndSymbols : Flags := ⟨false, false, true, false, false, true⟩

/-- The flags of `ipsw macho --sig --ent --objc --symbols <file>`. -/
def allReports : Flags := ⟨false, false, true, true, true, true⟩

/-- A requirement set of 100 bytes with two requirements, at offsets 28 and 60
of the set; both records carry the length 100. -/
def twoRequirements : List Requirement :=
  [⟨1, 28, 100, "identifier com.example.host"⟩, ⟨3, 60, 100, "anchor apple"⟩]

/-- A Code Directory whose header stores the page size 63 (log2). -/
def hugePageDirectory : CodeDirectory :=
  ⟨⟨200, 0x20400, 0, 88, 80, 5, 1, 4096, 32, 2, 63⟩, "com.example.app", "", "cafe", [], []⟩

/-- A Code Directory with 4096-byte pages (page size 12). -/
def plainDirectory : CodeDirectory :=
  ⟨⟨200, 0x20400, 0, 88, 80, 5, 1, 4096, 32, 2, 12⟩, "com.example.app", "", "cafe", [], []⟩

/-- Two selector references in the file order of the reference section. -/
def twoSelectors : List (Nat × String) := [(0x100008000, "init"), (0x100008008, "dealloc")]

/-- The line of the selector report for one entry of the map. -/
def selectorLine (e : Nat × String) : Out := Out.selector e.1 e.2

/-- The issuer label with the organizational unit taken first: the first
organizational unit if there is one, otherwise the first organization if there
is one, otherwise the empty string. -/
def unitFirstLabel (issuer : PkixName) : String :=
  match issuer.OrganizationalUnit with
  | some (unit :: _) => unit
  | _ =>
    match issuer.Organization with
    | some (organization :: _) => organization
    | _ => ""

/-- The Go slices of a name are `nil` or have an element, as the X.509 decoder
builds them. -/
def PkixName.SlicesFilled (issuer : PkixName) : Prop :=
  issuer.Organization ≠ some [] ∧ issuer.OrganizationalUnit ≠ some []

/-! # Theorems -/

/-! ## Lemmas on the symbols loop -/

theorem sectMinusOne_lt (sect n : Nat) (h0 : 0 < sect) (hn : sect ≤ n) :
    sectMinusOne sect < n := by
  unfold sectMinusOne
  omega

theorem sectMinusOne_eq (sect : Nat) (h0 : 0 < sect) (h8 : sect < 256) :
    sectMinusOne sect = sect - 1 := by
  unfold sectMinusOne
  omega

theorem symbolsLoop_cons (sections : List Section) (sec : String) (sym : Symbol)
    (rest : List Symbol) :
    symbolsLoop sections sec (sym :: rest)
      = (symbolsLoop sections (labelAfter sections sec sym) rest).map
          (fun outs => symbolLine sym (labelAfter sections sec sym) :: outs) := by
  rw [symbolsLoop]
  unfold labelAfter symbolLine
  split
  · rename_i hguard
    have hlt := sectMinusOne_lt sym.Sect sections.length hguard.1 hguard.2
    rw [List.getElem?_eq_getElem hlt]
  · rfl

/-- The loop never panics: it prints one line per symbol, in symbol-table
order, each with the value of `sec` current at that iteration. -/
theorem symbolsLoop_eq (sections : List Section) (syms : List Symbol) :
    ∀ sec, symbolsLoop sections sec syms
      = some (List.zipWith symbolLine syms (labelsFrom sections sec syms)) := by
  induction syms with
  | nil => intro sec; rfl
  | cons sym rest ih =>
    intro sec
    rw [symbolsLoop_cons, ih]
    rfl

theorem labelsFrom_length (sections : List Section) (syms : List Symbol) :
    ∀ sec, (labelsFrom sections sec syms).length = syms.length := by
  induction syms with
  | nil => intro sec; rfl
  | cons sym rest ih => intro sec; simp [labelsFrom, ih]

/-- The label of the symbol that follows `pre` in a table `pre ++ sym :: post`
whose section number is within the section list. -/
theorem labelsFrom_in_range (sections : List Section) (sym : Symbol) (post : List Symbol)
    (s : Section) (h0 : 0 < sym.Sect) (hn : sym.Sect ≤ sections.length)
    (hs : sections[sectMinusOne sym.Sect]? = some s) (pre : List Symbol) :
    ∀ sec, (List.zipWith symbolLine (pre ++ sym :: post)
        (labelsFrom sections sec (pre ++ sym :: post)))[pre.length]?
      = some (symbolLine sym (s.Seg ++ "." ++ s.Name)) := by
  induction pre with
  | nil =>
    intro sec
    simp [labelsFrom, labelAfter, h0, hn, hs]
  | cons p pre ih =>
    intro sec
    simp only [List.cons_append, labelsFrom, List.zipWith_cons_cons, List.length_cons,
      List.getElem?_cons_succ]
    exact ih _

/-! ## The claims on the symbols report -/

/-- C1: over two sections, the table `_counter` (section 2), `_stray` (section
number 3, one past the last section), `_malloc` (section number 0) is printed
with the label `__DATA.__data` on all three lines: the label passed for a
symbol whose section number is 0 or beyond the section list is the one left by
the symbol before it, not the empty label. -/
theorem symbolsLoop_stale_label :
    symbolsLoop twoSections "" threeSymbols
      = some [Out.symbol 0x100001000 0x0f "__DATA.__data" "_counter",
              Out.symbol 0x100002000 0x0e "__DATA.__data" "_stray",
              Out.symbol 0 0x01 "__DATA.__data" "_malloc"] := by
  decide

/-- C2: for a symbol whose 8-bit section number `i` satisfies
`1 ≤ i ≤ len(sections)`, whatever symbols come before and after it in the
table, the loop completes and the line of that symbol carries the label
`Seg ++ "." ++ Name` of the entry `sections[i-1]`. -/
theorem symbolsLoop_label_in_range (sections : List Section) (pre post : List Symbol)
    (sym : Symbol) (h8 : sym.Sect < 256) (h1 : 1 ≤ sym.Sect)
    (hn : sym.Sect ≤ sections.length) :
    ∃ s outs, sections[sym.Sect - 1]? = some s ∧
      symbolsLoop sections "" (pre ++ sym :: post) = some outs ∧
      outs[pre.length]?
        = some (Out.symbol sym.Value sym.Typ (s.Seg ++ "." ++ s.Name) sym.Name) := by
  have hlt : sym.Sect - 1 < sections.length := by omega
  have hidx : sectMinusOne sym.Sect = sym.Sect - 1 := sectMinusOne_eq sym.Sect h1 h8
  refine ⟨sections[sym.Sect - 1], _, List.getElem?_eq_getElem hlt,
    symbolsLoop_eq sections (pre ++ sym :: post) "", ?_⟩
  exact labelsFrom_in_range sections sym post _ h1 hn
    (by rw [hidx]; exact List.getElem?_eq_getElem hlt) pre ""

/-- Witness of C2: the symbol `_main` of section 1, placed after an undefined
symbol, over the one-section list. -/
theorem symbolsLoop_label_in_range_witness :
    ∃ s outs, oneSection[1 - 1]? = some s ∧
      symbolsLoop oneSection "" ([⟨"_printf", 0x01, 0, 0⟩] ++ ⟨"_main", 0x0f, 1, 0x100000f50⟩ :: [])
        = some outs ∧
      outs[1]? = some (Out.symbol 0x100000f50 0x0f (s.Seg ++ "." ++ s.Name) "_main") :=
  symbolsLoop_label_in_range oneSection [⟨"_printf", 0x01, 0, 0⟩] []
    ⟨"_main", 0x0f, 1, 0x100000f50⟩ (by decide) (by decide) (by decide)

/-- C3: on the file with one section and the two symbols `_main` (section 1)
and `_helper` (section number 0), both of the type byte `0x0e`, the symbols
report prints the two headings and two lines in table order, and the rendering
of the second line is called with the label `__TEXT.__text` left by the first:
whatever the rendering, the two lines carry the same tag, and under the
library's rendering both read `__TEXT.__text`, so the symbol with section
number 0 is printed as resolved to the section, not as unresolved. -/
theorem symbolsReport_two_symbols :
    symbolsReport symbolsOnly staleLabelFile
        = ⟨[Out.line "SYMBOLS", Out.line "=======",
            Out.symbol 0x100000f50 0x0e "__TEXT.__text" "_main",
            Out.symbol 0x100000f60 0x0e "__TEXT.__text" "_helper"], Outcome.ok⟩ ∧
      (∀ typeString : Nat → String → String,
        printedSymbols typeString (symbolsReport symbolsOnly staleLabelFile).out
          = [(0x100000f50, typeString 0x0e "__TEXT.__text", "_main"),
             (0x100000f60, typeString 0x0e "__TEXT.__text", "_helper")]) ∧
      printedSymbols nlTypeString (symbolsReport symbolsOnly staleLabelFile).out
        = [(0x100000f50, "__TEXT.__text", "_main"),
           (0x100000f60, "__TEXT.__text", "_helper")] ∧
      nlTypeString 0x0e "" ≠ "__TEXT.__text" := by
  have hrun : symbolsReport symbolsOnly staleLabelFile
      = ⟨[Out.line "SYMBOLS", Out.line "=======",
          Out.symbol 0x100000f50 0x0e "__TEXT.__text" "_main",
          Out.symbol 0x100000f60 0x0e "__TEXT.__text" "_helper"], Outcome.ok⟩ := by
    decide
  refine ⟨hrun, ?_, ?_, by decide⟩
  · intro typeString
    rw [hrun]
    rfl
  · rw [hrun]
    decide

/-- C4: for every section list (the empty one included) and every symbol
table, the loop completes without an index-out-of-range panic and prints one
line per symbol, and the symbols report of a file with that table ends
normally; in particular a table that holds a symbol numbered one past the last
section completes. -/
theorem symbolsLoop_no_fault (flags : Flags) (m : File) (symtab : Symtab) (sec : String)
    (hst : m.Symtab = some symtab) :
    (∃ outs, symbolsLoop m.Sections sec symtab.Syms = some outs ∧
        outs.length = symtab.Syms.length) ∧
      (symbolsReport flags m).outcome = Outcome.ok ∧
      (∀ (pre post : List Symbol) (name : String) (typ value : Nat),
        (symbolsLoop m.Sections sec
          (pre ++ ⟨name, typ, m.Sections.length + 1, value⟩ :: post)).isSome = true) := by
  refine ⟨⟨_, symbolsLoop_eq m.Sections symtab.Syms sec, ?_⟩, ?_, ?_⟩
  · simp [labelsFrom_length]
  · unfold symbolsReport
    rw [hst]
    simp only [symbolsLoop_eq]
    split <;> rfl
  · intro pre post name typ value
    rw [symbolsLoop_eq]
    rfl

/-- Witness of C4: the file with one section and the table `twoSymbols`. -/
theorem symbolsLoop_no_fault_witness :
    minimalFile.Symtab = some ⟨twoSymbols⟩ ∧
      (symbolsReport symbolsOnly minimalFile).outcome = Outcome.ok ∧
      (symbolsLoop oneSection "" ([] ++ ⟨"_stray", 0x0e, 2, 0⟩ :: [])).isSome = true :=
  have h := symbolsLoop_no_fault symbolsOnly minimalFile ⟨twoSymbols⟩ "" rfl
  ⟨rfl, h.2.1, h.2.2 [] [] "_stray" 0x0e 0⟩

/-! ## The certificate loop -/

theorem issuerLabel_unit_first (issuer : PkixName) (h : issuer.SlicesFilled) :
    issuerLabel issuer = some (unitFirstLabel issuer) := by
  obtain ⟨org, unit, cn⟩ := issuer
  obtain ⟨horg, hunit⟩ := h
  simp only at horg hunit
  unfold issuerLabel unitFirstLabel
  rcases org with _ | (_ | ⟨o, os⟩) <;> rcases unit with _ | (_ | ⟨u, us⟩) <;> simp_all

/-- C5, the claim as stated fails: the issuer `Apple Inc.` /
`Apple Certification Authority` has an organization, and the line printed for
its certificate carries the organizational unit, not the organization. -/
theorem certificatesLoop_both_present :
    appleCertificate.Issuer.Organization = some ["Apple Inc."] ∧
      certificatesLoop [appleCertificate]
        = some [Out.cert "Apple Certification Authority" "Software Signing"
            1161820800 2054670036] ∧
      certificatesLoop [appleCertificate]
        ≠ some [Out.cert "Apple Inc." "Software Signing" 1161820800 2054670036] := by
  decide

/-- C5, amended: for every list of certificates whose issuer slices are `nil`
or non-empty, the loop prints one line per certificate, in order, and the
issuer label of each line is the first organizational unit if the issuer has
one, otherwise the first organization if it has one, otherwise empty. -/
theorem certificatesLoop_unit_first (certs : List Certificate)
    (h : ∀ c ∈ certs, c.Issuer.SlicesFilled) :
    certificatesLoop certs
      = some (certs.map (fun c =>
          Out.cert (unitFirstLabel c.Issuer) c.Subject.CommonName c.NotBefore c.NotAfter)) := by
  induction certs with
  | nil => rfl
  | cons c rest ih =>
    have hc := issuerLabel_unit_first c.Issuer (h c (List.mem_cons_self c rest))
    have hrest := ih (fun d hd => h d (List.mem_cons_of_mem c hd))
    simp [certificatesLoop, hc, hrest]

/-- Witness of C5 (amended): the Apple certificate, labelled by its
organizational unit. -/
theorem certificatesLoop_unit_first_witness :
    unitFirstLabel appleIssuer = "Apple Certification Authority" ∧
      certificatesLoop [appleCertificate]
        = some ([appleCertificate].map (fun c =>
            Out.cert (unitFirstLabel c.Issuer) c.Subject.CommonName c.NotBefore c.NotAfter)) :=
  ⟨by decide, certificatesLoop_unit_first [appleCertificate] (by
    intro c hc
    rw [List.mem_singleton] at hc
    subst hc
    exact ⟨by decide, by decide⟩)⟩

/-! ## The requirements report -/

/-- C8: for a requirement set with two requirements at offsets 28 and 60, the
report prints for each requirement the `Length` field of its record (100, the
length in the set header), and the heading prints the `Length` of the first
record: no line carries `60 - 28 = 32`, the distance to the next offset. -/
theorem requirementsReport_prints_length_field :
    requirementsReport twoRequirements
      = [Out.reqSet 100 2,
         Out.req 0 1 28 100 "identifier com.example.host",
         Out.req 1 3 60 100 "anchor apple"] := by
  decide

/-! ## The page size of a Code Directory -/

/-- C9, the claim as stated fails: with a 64-bit `int`, the page size 63 is
reported as the smallest integer, not as `2^63`. -/
theorem pages_overflow :
    hugePageDirectory.Header.PageSize = 63 ∧
      pages amd64 hugePageDirectory = -9223372036854775808 ∧
      pages amd64 hugePageDirectory ≠ 2 ^ 63 := by
  decide

/-- C9, amended: when the stored page size is below the width of `int` minus
one (at most 62 for a 64-bit `int`), the number printed for the pages is
exactly `2 ^ PageSize`. -/
theorem pages_exact (env : Env) (cd : CodeDirectory)
    (h : cd.Header.PageSize + 1 < env.intBits) :
    pages env cd = 2 ^ cd.Header.PageSize ∧
      (codeDirectoryReport env cd)[1]?
        = some (Out.cdInfo cd.Header.Version cd.Header.Flags cd.Header.CodeLimit cd.ID
            cd.Header.IdentOffset cd.TeamID cd.CDHash cd.Header.NCodeSlots
            (2 ^ cd.Header.PageSize)
            cd.Header.NSpecialSlots cd.Header.HashOffset cd.Header.HashSize
            cd.Header.HashType) := by
  have hp : pages env cd = 2 ^ cd.Header.PageSize := by
    unfold pages floatToInt powTwoFloat
    have hlt : 2 ^ cd.Header.PageSize < 2 ^ (env.intBits - 1) :=
      Nat.pow_lt_pow_right (by decide) (by omega)
    rw [if_pos hlt]
    push_cast
    rfl
  refine ⟨hp, ?_⟩
  simp [codeDirectoryReport, hp]

/-- Witness of C9 (amended): page size 12 on a 64-bit platform. -/
theorem pages_exact_witness :
    plainDirectory.Header.PageSize + 1 < amd64.intBits ∧
      pages amd64 plainDirectory = 2 ^ plainDirectory.Header.PageSize :=
  ⟨by decide, (pages_exact amd64 plainDirectory (by decide)).1⟩

/-! ## The selector report -/

/-- C10, the claim as stated fails: the runtime that visits the map in
reverse insertion order is a legitimate one, and under it the two selectors
are printed in the reverse of the file order; a run under the other runtime
prints them in file order, so two runs on the same input differ. -/
theorem selectorReferencesLoop_not_file_order :
    amd64Reversed.RangeVisitsAll ∧ amd64.RangeVisitsAll ∧
      selectorReferencesLoop amd64Reversed twoSelectors
        = [Out.selector 0x100008008 "dealloc", Out.selector 0x100008000 "init"] ∧
      selectorReferencesLoop amd64Reversed twoSelectors ≠ twoSelectors.map selectorLine ∧
      selectorReferencesLoop amd64Reversed twoSelectors
        ≠ selectorReferencesLoop amd64 twoSelectors := by
  refine ⟨⟨fun m => List.reverse_perm m, fun m => List.Perm.refl m⟩,
    ⟨fun m => List.Perm.refl m, fun m => List.Perm.refl m⟩, ?_, ?_, ?_⟩ <;> decide

/-- C10, amended: whatever order the runtime visits the map in, the selector
report holds the line of every entry of the map exactly once: it is a
permutation of the lines in file order. -/
theorem selectorReferencesLoop_perm (env : Env) (selRefs : List (Nat × String))
    (h : env.RangeVisitsAll) :
    (selectorReferencesLoop env selRefs).Perm (selRefs.map selectorLine) := by
  unfold selectorReferencesLoop
  exact (h.1 selRefs).map _

/-- Witness of C10 (amended): the reversing runtime on the two selectors. -/
theorem selectorReferencesLoop_perm_witness :
    (selectorReferencesLoop amd64Reversed twoSelectors).Perm (twoSelectors.map selectorLine) :=
  selectorReferencesLoop_perm amd64Reversed twoSelectors
    ⟨fun m => List.reverse_perm m, fun m => List.Perm.refl m⟩

/-! ## The whole run -/

theorem Run.andThen_ok (r k : Run) (h : r.outcome = Outcome.ok) :
    r.andThen k = ⟨r.out ++ k.out, k.outcome⟩ := by
  unfold Run.andThen
  rw [h]

theorem Run.prints_andThen (out : List Out) (k : Run) :
    (Run.prints out).andThen k = ⟨out ++ k.out, k.outcome⟩ := rfl

theorem symbolsReport_ok (flags : Flags) (m : File) (symtab : Symtab)
    (hst : m.Symtab = some symtab) :
    (symbolsReport flags m).outcome = Outcome.ok := by
  unfold symbolsReport
  rw [hst]
  simp only [symbolsLoop_eq]
  split <;> rfl

theorem line_not_mem_codeDirectoriesReport (env : Env) (cds : List CodeDirectory) (s : String) :
    Out.line s ∉ codeDirectoriesReport env cds := by
  unfold codeDirectoriesReport
  split
  · simp only [List.mem_flatten, List.mem_map, not_exists, not_and]
    rintro l ⟨cd, _, rfl⟩
    unfold codeDirectoryReport
    split <;> simp
  · simp

theorem symbol_not_mem_codeDirectoriesReport (env : Env) (cds : List CodeDirectory)
    (v t : Nat) (sec name : String) :
    Out.symbol v t sec name ∉ codeDirectoriesReport env cds := by
  unfold codeDirectoriesReport
  split
  · simp only [List.mem_flatten, List.mem_map, not_exists, not_and]
    rintro l ⟨cd, _, rfl⟩
    unfold codeDirectoryReport
    split <;> simp
  · simp

theorem mem_requirementsLoop (reqs : List Requirement) :
    ∀ idx o, o ∈ requirementsLoop idx reqs → ∃ i t off len d, o = Out.req i t off len d := by
  induction reqs with
  | nil => intro idx o h; simp [requirementsLoop] at h
  | cons r rest ih =>
    intro idx o h
    simp only [requirementsLoop, List.mem_cons] at h
    rcases h with h | h
    · exact ⟨_, _, _, _, _, h⟩
    · exact ih _ _ h

theorem line_not_mem_requirementsReport (reqs : List Requirement) (s : String) :
    Out.line s ∉ requirementsReport reqs := by
  unfold requirementsReport
  split
  · simp
  · intro h
    simp only [List.mem_cons, reduceCtorEq, false_or] at h
    obtain ⟨_, _, _, _, _, h⟩ := mem_requirementsLoop _ _ _ h
    cases h

theorem symbol_not_mem_requirementsReport (reqs : List Requirement)
    (v t : Nat) (sec name : String) :
    Out.symbol v t sec name ∉ requirementsReport reqs := by
  unfold requirementsReport
  split
  · simp
  · intro h
    simp only [List.mem_cons, reduceCtorEq, false_or] at h
    obtain ⟨_, _, _, _, _, h⟩ := mem_requirementsLoop _ _ _ h
    cases h

/-- C6, the claim as stated fails: on a file whose CMS blob is not DER, with
the signature and symbols reports requested, `pkcs7.Parse` fails, the run
returns its error right after the CMS heading, and no symbols report is
printed. -/
theorem RunE_corrupt_signature_drops_symbols :
    0 < ([0xde, 0xad] : List Nat).length ∧
      amd64.pkcs7Parse [0xde, 0xad] = Except.error "asn1: structure error" ∧
      RunE amd64 sigAndSymbols corruptSignatureFile
        = ⟨[Out.line "CMS (RFC3852) signature:"], Outcome.error "asn1: structure error"⟩ ∧
      Out.line "SYMBOLS" ∉ (RunE amd64 sigAndSymbols corruptSignatureFile).out := by
  refine ⟨by decide, rfl, by decide, by decide⟩

/-- C6, amended: for every parsed file whose CMS signature bytes are non-empty
but fail to decode, when the signature report is requested the run returns
the decode error; what it printed is the header block, the signature heading,
the Code Directory and requirement reports and the CMS heading, and nothing
after that: no symbols report, whatever the other flags. -/
theorem RunE_cms_error_aborts (env : Env) (flags : Flags) (m : File) (cs : CodeSignature)
    (err : String) (hcs : m.CodeSignature = some cs) (hne : 0 < cs.CMSSignature.length)
    (herr : env.pkcs7Parse cs.CMSSignature = Except.error err)
    (hsig : flags.showSignature = true) :
    RunE env flags m
        = ⟨(headerReport flags m).out
            ++ ((if !onlySig flags then
                  [Out.line "Code Signature", Out.line "=============="] else [])
              ++ ((codeDirectoriesReport env cs.CodeDirectories
                    ++ requirementsReport cs.Requirements)
                ++ [Out.line "CMS (RFC3852) signature:"])),
           Outcome.error err⟩ ∧
      Out.line "SYMBOLS" ∉ (RunE env flags m).out ∧
      (∀ v t sec name, Out.symbol v t sec name ∉ (RunE env flags m).out) := by
  have hcms : cmsReport env cs.CMSSignature
      = ⟨[Out.line "CMS (RFC3852) signature:"], Outcome.error err⟩ := by
    unfold cmsReport
    rw [if_pos hne, herr]
  have hrun : RunE env flags m
      = ⟨(headerReport flags m).out
          ++ ((if !onlySig flags then
                [Out.line "Code Signature", Out.line "=============="] else [])
            ++ ((codeDirectoriesReport env cs.CodeDirectories
                  ++ requirementsReport cs.Requirements)
              ++ [Out.line "CMS (RFC3852) signature:"])),
         Outcome.error err⟩ := by
    unfold RunE signatureReport
    rw [if_pos hsig, hcs]
    simp only [hcms, headerReport, Run.prints_andThen]
    rfl
  refine ⟨hrun, ?_, ?_⟩
  · rw [hrun]
    have h1 := line_not_mem_codeDirectoriesReport env cs.CodeDirectories "SYMBOLS"
    have h2 := line_not_mem_requirementsReport cs.Requirements "SYMBOLS"
    simp only [headerReport, Run.prints, List.mem_append, not_or]
    refine ⟨?_, ?_, ⟨h1, h2⟩, by simp⟩
    · constructor <;> split <;> simp
    · split <;> simp
  · intro v t sec name
    rw [hrun]
    have h1 := symbol_not_mem_codeDirectoriesReport env cs.CodeDirectories v t sec name
    have h2 := symbol_not_mem_requirementsReport cs.Requirements v t sec name
    simp only [headerReport, Run.prints, List.mem_append, not_or]
    refine ⟨?_, ?_, ⟨h1, h2⟩, by simp⟩
    · constructor <;> split <;> simp
    · split <;> simp

/-- Witness of C6 (amended): the file with the two-byte CMS blob. -/
theorem RunE_cms_error_aborts_witness :
    (RunE amd64 allReports corruptSignatureFile).outcome
        = Outcome.error "asn1: structure error" ∧
      Out.line "SYMBOLS" ∉ (RunE amd64 allReports corruptSignatureFile).out :=
  have h := RunE_cms_error_aborts amd64 allReports corruptSignatureFile
    ⟨[], [], [0xde, 0xad], ""⟩ "asn1: structure error" rfl (by decide) rfl rfl
  ⟨by rw [h.1], h.2.1⟩

/-- When the file has no code signature, has a symbol table, and no ObjC
getter ends the process, the run ends with `return nil` and prints the three
absent-data lines under their flags. -/
theorem RunE_absent_signature (env : Env) (flags : Flags) (m : File) (symtab : Symtab)
    (h : m.CodeSignature = none) (hst : m.Symtab = some symtab)
    (hobjcOk : (objcReport env flags m).outcome = Outcome.ok) :
    (RunE env flags m).outcome = Outcome.ok ∧
      (flags.showSignature = true →
        Out.line "  - no code signature data" ∈ (RunE env flags m).out) ∧
      (flags.showEntitlements = true →
        Out.line "  - no entitlements" ∈ (RunE env flags m).out) ∧
      (flags.showObjC = true → m.HasObjC = false →
        Out.line "  - no objc" ∈ (RunE env flags m).out) := by
  have hsigOk : (signatureReport env flags m).outcome = Outcome.ok := by
    unfold signatureReport
    rw [h]
    split <;> rfl
  have hentOk : (entitlementsReport flags m).outcome = Outcome.ok := by
    unfold entitlementsReport
    split <;> rfl
  have hrun : RunE env flags m
      = ⟨(headerReport flags m).out ++ ((signatureReport env flags m).out
          ++ ((entitlementsReport flags m).out ++ ((objcReport env flags m).out
            ++ (symbolsReport flags m).out))), Outcome.ok⟩ := by
    unfold RunE
    rw [Run.andThen_ok (objcReport env flags m) _ hobjcOk]
    rw [Run.andThen_ok (entitlementsReport flags m) _ hentOk]
    rw [Run.andThen_ok (signatureReport env flags m) _ hsigOk]
    rw [Run.andThen_ok (headerReport flags m) _ rfl]
    simp only [symbolsReport_ok flags m symtab hst]
  rw [hrun]
  refine ⟨rfl, ?_, ?_, ?_⟩
  · intro hs
    have : Out.line "  - no code signature data" ∈ (signatureReport env flags m).out := by
      unfold signatureReport
      rw [if_pos hs, h]
      simp [Run.prints, Run.andThen]
    simp [this]
  · intro he
    have : Out.line "  - no entitlements" ∈ (entitlementsReport flags m).out := by
      unfold entitlementsReport
      rw [if_pos he, h]
      simp [Run.prints]
    simp [this]
  · intro ho hno
    have : Out.line "  - no objc" ∈ (objcReport env flags m).out := by
      unfold objcReport
      rw [if_pos ho, hno]
      simp [Run.prints, Run.andThen]
    simp [this]

/-- C7: the file `strippedFile` is loaded, has no code signature and has no
symbol table (`m.Symtab` is `nil`).  With the symbols flag the run prints the
load commands and the two headings of the symbols report and then panics on
the nil pointer at `m.Symtab.Syms`: it does not end with `return nil`.  The
same file with the other three reports requested ends normally and prints the
three absent-data lines. -/
theorem RunE_nil_symtab_panics :
    strippedFile.CodeSignature = none ∧ strippedFile.Symtab = none ∧
      RunE amd64 symbolsOnly strippedFile
        = ⟨[Out.toc "000: LC_SEGMENT_64 __TEXT", Out.line "SYMBOLS", Out.line "======="],
           Outcome.fault⟩ ∧
      RunE amd64 ⟨false, false, true, true, true, false⟩ strippedFile
        = ⟨[Out.line "Code Signature", Out.line "==============",
            Out.line "  - no code signature data", Out.blank,
            Out.line "Entitlements", Out.line "============",
            Out.line "  - no entitlements",
            Out.line "Objective-C", Out.line "===========",
            Out.line "  - no objc", Out.blank], Outcome.ok⟩ := by
  refine ⟨rfl, rfl, ?_, ?_⟩ <;> decide

end Macho
